import Mathlib

/-!
Verification of the meetdy meeting-session engine (src-tauri).

Shallow embedding of the session lifecycle engine in
`src/src-tauri/src/managers/meeting.rs`, the command layer in
`src/src-tauri/src/commands/meeting.rs`, and the audio utilities in
`src/src-tauri/src/audio_toolkit/system_audio.rs`.

The embedding keeps the source's names where possible.  Stateful Rust code
(the `MeetingSessionManager` with its store, in-memory slot and background
workers) becomes an explicit state type with a step function over an
operation alphabet; the WAV sink becomes a small state machine of its own;
pure functions (`resample`, status codecs, `validate_state_transition`,
`validate_safe_path`) become Lean functions.
-/

/-- Lifecycle status of a meeting session (enum `MeetingStatus`). -/
inductive MeetingStatus where
  | Idle
  | Recording
  | Processing
  | Completed
  | Failed
  | Interrupted
deriving DecidableEq, Repr

/-- Audio source configuration (enum `AudioSourceType`). -/
inductive AudioSourceType where
  | MicrophoneOnly
  | SystemOnly
  | Mixed
deriving DecidableEq, Repr

/-- `MeetingSessionManager::status_to_string`: status as persisted in the DB. -/
def status_to_string : MeetingStatus → String
  | .Idle => "idle"
  | .Recording => "recording"
  | .Processing => "processing"
  | .Completed => "completed"
  | .Failed => "failed"
  | .Interrupted => "interrupted"

/-- `MeetingSessionManager::string_to_status`: decode a DB string; any
unrecognized string falls back to `Idle` (the `_` arm of the Rust match). -/
def string_to_status (s : String) : MeetingStatus :=
  if s = "idle" then .Idle
  else if s = "recording" then .Recording
  else if s = "processing" then .Processing
  else if s = "completed" then .Completed
  else if s = "failed" then .Failed
  else if s = "interrupted" then .Interrupted
  else .Idle

/-- `MeetingSessionManager::validate_state_transition` (meeting.rs lines
940-959): the eight `Ok` arms, everything else is `Err`. -/
def validate_state_transition (from_ to_ : MeetingStatus) : Except String Unit :=
  match from_, to_ with
  | .Idle, .Recording => .ok ()
  | .Recording, .Processing => .ok ()
  | .Recording, .Failed => .ok ()
  | .Recording, .Interrupted => .ok ()
  | .Processing, .Completed => .ok ()
  | .Processing, .Failed => .ok ()
  | .Failed, .Processing => .ok ()
  | .Interrupted, .Processing => .ok ()
  | _, _ => .error "Invalid state transition"

/-- Status guard of the `retry_transcription` command (commands/meeting.rs
lines 250-261): retry is allowed exactly from Failed, Interrupted, Completed. -/
def retryableStatus : MeetingStatus → Bool
  | .Failed => true
  | .Interrupted => true
  | .Completed => true
  | _ => false

/-- Whether an `Except` result is `ok`. -/
def exceptOk {ε α : Type} : Except ε α → Bool
  | .ok _ => true
  | .error _ => false

/-- The transitions the running system can perform on a session's status:
either `validate_state_transition` accepts the pair (the stop path), or the
`retry_transcription` command moves a retryable session to `Processing`. -/
def transitionPermitted (from_ to_ : MeetingStatus) : Bool :=
  exceptOk (validate_state_transition from_ to_) ||
    (retryableStatus from_ && (to_ == .Processing))

/-- The nine transitions listed in the spec (section 4.5 plus the explicit
re-transcribe line), written out from the spec's words for comparison with
the code-derived `transitionPermitted`. -/
def spec_listed_transitions : List (MeetingStatus × MeetingStatus) :=
  [ (.Idle, .Recording),
    (.Recording, .Processing),
    (.Recording, .Failed),
    (.Recording, .Interrupted),
    (.Processing, .Completed),
    (.Processing, .Failed),
    (.Failed, .Processing),
    (.Interrupted, .Processing),
    (.Completed, .Processing) ]

/-!
## WAV sink (`WavWriterHandle`, meeting.rs lines 250-349)

The sink wraps a `hound::WavWriter` behind a mutex together with an atomic
`closed` flag.  `write_samples` returns Ok immediately when `closed` is set;
otherwise it converts each float sample to i16 and appends it, then calls
`WavWriter::flush`, which (per hound's contract) patches the header size
fields so the file on disk is a valid WAV through the last flush.
`finalize_with_timeout` first sets `closed`, then either acquires the writer
(patching the header and closing: `WavWriter::finalize`) or times out,
leaving the file exactly as the last flush left it.  The lock outcome of the
retry loop is modelled by the `acquired` parameter.
-/

/-- Rust `(sample * i16::MAX as f32) as i16`: scale by 32767, truncate toward
zero and saturate to the i16 range (the semantics of a float `as` cast). -/
def sampleToI16 (q : ℚ) : Int :=
  let scaled : ℚ := q * 32767
  let truncated : Int := if 0 ≤ scaled then Int.floor scaled else Int.ceil scaled
  max (-32768) (min 32767 truncated)

/-- The on-disk WAV file: the fixed format fields of the 44-byte header, the
data-size header field, and the i16 samples of the data chunk. -/
structure WavFile where
  channels : Nat
  sampleRate : Nat
  bitsPerSample : Nat
  dataSizeField : Nat
  samples : List Int
deriving DecidableEq, Repr

/-- File created by `WavWriter::new` with the spec of `start_recording`
(meeting.rs lines 1076-1081): mono, 16 kHz, 16-bit, no data yet. -/
def initWavFile : WavFile :=
  { channels := 1, sampleRate := 16000, bitsPerSample := 16
    dataSizeField := 0, samples := [] }

/-- State of a `WavWriterHandle`: the file, the `closed` flag, and whether
`finalize` already took the writer out of the `Option` (`guard.take()`). -/
structure SinkState where
  file : WavFile
  closed : Bool
  writerTaken : Bool
deriving DecidableEq, Repr

/-- Sink right after `WavWriterHandle::new`. -/
def initSink : SinkState :=
  { file := initWavFile, closed := false, writerTaken := false }

/-- `WavWriterHandle::write_samples` (meeting.rs lines 263-283). -/
def write_samples (s : SinkState) (samples : List ℚ) :
    Except String Unit × SinkState :=
  if s.closed then
    (.ok (), s)
  else if s.writerTaken then
    (.ok (), s)
  else
    let newSamples := s.file.samples ++ samples.map sampleToI16
    let file' := { s.file with
      samples := newSamples
      dataSizeField := 2 * newSamples.length }
    (.ok (), { s with file := file' })

/-- `WavWriterHandle::finalize_with_timeout` (meeting.rs lines 285-348);
`acquired` tells whether the try-lock loop succeeded before the deadline. -/
def finalize_with_timeout (s : SinkState) (acquired : Bool) :
    Except String Unit × SinkState :=
  let s1 := { s with closed := true }
  if acquired then
    if s1.writerTaken then
      (.ok (), s1)
    else
      let file' := { s1.file with dataSizeField := 2 * s1.file.samples.length }
      (.ok (), { s1 with file := file', writerTaken := true })
  else
    (.error "Timeout finalizing WAV file; partial audio saved", s1)

/-- One event in the life of a sink: a producer write or a finalization
attempt with its lock outcome. -/
inductive SinkOp where
  | write (samples : List ℚ)
  | finalize (acquired : Bool)

/-- Apply one sink event to the sink state. -/
def sinkStep (s : SinkState) (op : SinkOp) : SinkState :=
  match op with
  | .write xs => (write_samples s xs).2
  | .finalize a => (finalize_with_timeout s a).2

/-- Run a sequence of sink events. -/
def runSink (s : SinkState) (ops : List SinkOp) : SinkState :=
  ops.foldl sinkStep s

/-- A valid session WAV file: 16-bit 16 kHz mono PCM whose data-size header
field equals the number of data bytes (2 bytes per i16 sample). -/
def validWav (f : WavFile) : Prop :=
  f.channels = 1 ∧ f.sampleRate = 16000 ∧ f.bitsPerSample = 16 ∧
    f.dataSizeField = 2 * f.samples.length

/-- Run a sequence of producer write calls. -/
def writeMany (s : SinkState) (chunks : List (List ℚ)) : SinkState :=
  chunks.foldl (fun st xs => (write_samples st xs).2) s

/-- Whether every write call in a sequence of producer writes returns Ok. -/
def allWritesOk (s : SinkState) : List (List ℚ) → Bool
  | [] => true
  | xs :: rest =>
    exceptOk (write_samples s xs).1 && allWritesOk (write_samples s xs).2 rest

/-!
## Audio utilities (`audio_toolkit/system_audio.rs`)

`resample` (lines 289-316) uses linear interpolation; samples are modelled
as exact rationals (the float arithmetic carried out exactly).
-/

/-- `resample(samples, from_rate, to_rate)`: identity when the rates match,
otherwise `ceil(len * to/from)` linearly interpolated samples. -/
def resample (samples : List ℚ) (fromRate toRate : Nat) : List ℚ :=
  if fromRate = toRate then
    samples
  else
    let ratio : ℚ := (toRate : ℚ) / (fromRate : ℚ)
    let newLen : Nat := (Int.ceil ((samples.length : ℚ) * ratio)).toNat
    (List.range newLen).map (fun (i : Nat) =>
      let srcIdx : ℚ := (i : ℚ) / ratio
      let idxFloor : Nat := (Int.floor srcIdx).toNat
      let idxCeil : Nat := min (idxFloor + 1) (samples.length - 1)
      let frac : ℚ := srcIdx - (idxFloor : ℚ)
      if idxFloor < samples.length then
        let a := samples.getD idxFloor 0
        let b := samples.getD idxCeil a
        a + (b - a) * frac
      else 0)

/-!
## Path safety (`commands/meeting.rs` lines 16-84)

Paths are modelled as lists of components in the sense of Rust's
`Path::components()`; the filesystem facts the function consults —
whether a path exists and what it canonicalizes to (symlink resolution) —
are oracles passed in as functions.
-/

/-- One component of a path (`std::path::Component`; the Windows-only
`Prefix` variant is folded into `rootDir`, both take the same arm). -/
inductive PathComp where
  | normal (name : String)
  | parentDir
  | rootDir
  | curDir
deriving DecidableEq, Repr

/-- A path as its component list. -/
abbrev FsPath : Type := List PathComp

/-- `Path::is_absolute` (Unix): the path has a root. -/
def isAbsolutePath (p : FsPath) : Bool :=
  match p with
  | .rootDir :: _ => true
  | _ => false

/-- The component loop of `validate_safe_path`: the first dangerous
component determines the error. -/
def checkComponents : FsPath → Option String
  | [] => none
  | .parentDir :: _ => some "Path traversal (parent directory) is not allowed"
  | .rootDir :: _ => some "Absolute path components are not allowed"
  | .normal _ :: rest => checkComponents rest
  | .curDir :: rest => checkComponents rest

/-- `base_dir.join(relative_path)` for a relative path. -/
def joinPath (base rel : FsPath) : FsPath := base ++ rel

/-- `Path::parent`: drop the final component (none for an empty path). -/
def parentOf (p : FsPath) : Option FsPath :=
  match p with
  | [] => none
  | _ => some p.dropLast

/-- `validate_safe_path(base_dir, relative_path)` (commands/meeting.rs lines
16-69).  `exOracle p` says whether `p` exists on disk, `canonOracle p` is
`p.canonicalize()` (`none` when canonicalization fails). -/
def validate_safe_path (exOracle : FsPath → Bool)
    (canonOracle : FsPath → Option FsPath)
    (base_dir : FsPath) (relative_path : FsPath) : Except String FsPath :=
  if isAbsolutePath relative_path then
    .error "Absolute paths are not allowed"
  else
    match checkComponents relative_path with
    | some e => .error e
    | none =>
      let full_path := joinPath base_dir relative_path
      match canonOracle base_dir with
      | none => .error "Failed to canonicalize base directory"
      | some canonical_base =>
        if exOracle full_path then
          match canonOracle full_path with
          | none => .error "Failed to canonicalize path"
          | some canonical_full =>
            if List.isPrefixOf canonical_base canonical_full then
              .ok full_path
            else
              .error "Path escapes the allowed directory"
        else
          match parentOf full_path with
          | some parent =>
            if exOracle parent then
              match canonOracle parent with
              | none => .error "Failed to canonicalize parent directory"
              | some canonical_parent =>
                if List.isPrefixOf canonical_base canonical_parent then
                  .ok full_path
                else
                  .error "Parent directory escapes the allowed directory"
            else
              .ok full_path
          | none => .ok full_path

/-- `validate_safe_write_path` (commands/meeting.rs lines 73-84): the same
validation plus the requirement that the parent directory exists. -/
def validate_safe_write_path (exOracle : FsPath → Bool)
    (canonOracle : FsPath → Option FsPath)
    (base_dir : FsPath) (relative_path : FsPath) : Except String FsPath :=
  match validate_safe_path exOracle canonOracle base_dir relative_path with
  | .error e => .error e
  | .ok full_path =>
    match parentOf full_path with
    | some parent =>
      if exOracle parent then .ok full_path
      else .error "Parent directory does not exist"
    | none => .ok full_path

/-- Path resolution of the `get_meeting_transcript` command (line 370):
the transcript read goes through `validate_safe_path`. -/
def transcript_read_resolve (exOracle : FsPath → Bool)
    (canonOracle : FsPath → Option FsPath)
    (meetings_dir rel : FsPath) : Except String FsPath :=
  validate_safe_path exOracle canonOracle meetings_dir rel

/-- Path resolution of the `get_meeting_summary` command (line 645):
the summary read goes through `validate_safe_path`. -/
def summary_read_resolve (exOracle : FsPath → Bool)
    (canonOracle : FsPath → Option FsPath)
    (meetings_dir rel : FsPath) : Except String FsPath :=
  validate_safe_path exOracle canonOracle meetings_dir rel

/-- Path resolution of the transcript read inside `generate_meeting_summary`
(line 477): goes through `validate_safe_path`. -/
def summary_transcript_resolve (exOracle : FsPath → Bool)
    (canonOracle : FsPath → Option FsPath)
    (meetings_dir rel : FsPath) : Except String FsPath :=
  validate_safe_path exOracle canonOracle meetings_dir rel

/-- Path resolution of the summary write inside `generate_meeting_summary`
(line 580): goes through `validate_safe_write_path`. -/
def summary_write_resolve (exOracle : FsPath → Bool)
    (canonOracle : FsPath → Option FsPath)
    (meetings_dir rel : FsPath) : Except String FsPath :=
  validate_safe_write_path exOracle canonOracle meetings_dir rel

/-!
## Session engine (`MeetingSessionManager`, managers/meeting.rs)

The manager owns a SQLite store of session rows, an in-memory
`current_session` slot, and fire-and-forget transcription workers.  The
embedding is a state machine: the store is the list of rows, the slot an
`Option Session`, and `pending` the ids for which a spawned transcription
worker has not yet delivered its result (`stop_recording` and the retry
command each spawn one).  Session ids are drawn from a counter instead of
UUIDs; wall-clock readings (`chrono::Utc::now().timestamp()`) enter as the
`now` argument of each operation.  Each operation mutates the store and the
slot exactly as the corresponding Rust function does at its return.
-/

/-- A session row (`MeetingSession`), with ids as naturals. -/
structure Session where
  id : Nat
  title : String
  created_at : Int
  duration : Option Int
  status : MeetingStatus
  audio_path : Option String
  transcript_path : Option String
  error_message : Option String
  audio_source : AudioSourceType
deriving DecidableEq, Repr

/-- Whole-engine state: the DB rows, the in-memory slot, the ids with an
in-flight transcription worker, and the fresh-id counter. -/
structure EngineState where
  store : List Session
  slot : Option Session
  pending : List Nat
  nextId : Nat
deriving DecidableEq, Repr

/-- The empty engine right after initialization. -/
def initEngine : EngineState :=
  { store := [], slot := none, pending := [], nextId := 0 }

/-- `UPDATE meeting_sessions SET ... WHERE id = ?`: apply `f` to every row
with the given id. -/
def storeUpdate (store : List Session) (id : Nat) (f : Session → Session) :
    List Session :=
  store.map (fun r => if r.id = id then f r else r)

/-- `SELECT ... WHERE id = ?` (`get_session`): first row with the id. -/
def storeGet (store : List Session) (id : Nat) : Option Session :=
  store.find? (fun r => r.id = id)

/-- Relative audio path `"{session-id}/audio.wav"`. -/
def audioFileName (id : Nat) : String := toString id ++ "/audio.wav"

/-- Relative transcript path `"{session-id}/transcript.txt"`. -/
def transcriptFileName (id : Nat) : String := toString id ++ "/transcript.txt"

/-- Default title (`format_meeting_title`), abstracted to the id. -/
def meetingTitle (id : Nat) : String := "Meeting " ++ toString id

/-- The body of `start_recording` after its state-machine guard (meeting.rs
lines 1051-1211): create the session row (status Idle), create the audio
file, set the row's `audio_path`, update the row's status to Recording, and
leave the slot holding the Recording session. -/
def startRecordingBody (s : EngineState) (now : Int) (src : AudioSourceType) :
    EngineState :=
  let id := s.nextId
  let sess : Session :=
    { id := id, title := meetingTitle id, created_at := now, duration := none
      status := .Idle, audio_path := none, transcript_path := none
      error_message := none, audio_source := src }
  let store1 := s.store ++ [sess]
  let store2 := storeUpdate store1 id
    (fun r => { r with audio_path := some (audioFileName id) })
  let store3 := storeUpdate store2 id (fun r => { r with status := .Recording })
  let slotSess :=
    { sess with audio_path := some (audioFileName id), status := .Recording }
  { store := store3, slot := some slotSess, pending := s.pending
    nextId := id + 1 }

/-- `start_recording` (meeting.rs lines 1017-1212).  Guard: reject while the
slot session is Recording or Processing, then run the recording set-up. -/
def start_recording (s : EngineState) (now : Int) (src : AudioSourceType) :
    Except String EngineState :=
  match s.slot with
  | some cur =>
    match cur.status with
    | .Recording =>
      .error "Cannot start recording: already recording an active session"
    | .Processing =>
      .error "Cannot start recording: another session is currently being processed"
    | _ => .ok (startRecordingBody s now src)
  | none => .ok (startRecordingBody s now src)

/-- `stop_recording` (meeting.rs lines 1227-1574).  Guard: the slot session
must be Recording with an audio path.  Stop the recorder, attempt
finalization (`finalizeOk` is the outcome of `finalize_with_timeout`; a
timeout is only logged), compute the duration and reject a negative one,
then move the row and the slot to Processing with the duration set, spawn
the transcription worker and return the relative audio path. -/
def stop_recording (s : EngineState) (now : Int) (finalizeOk : Bool) :
    Except String (String × EngineState) :=
  match s.slot with
  | none => .error "Cannot stop recording: no active session"
  | some sess =>
    match sess.status with
    | .Recording =>
      match sess.audio_path with
      | none => .error "Cannot stop recording: no audio path set for session"
      | some path =>
        match storeGet s.store sess.id with
        | none => .error "Session not found after stopping recording"
        | some row =>
          let duration := now - row.created_at
          if duration < 0 then
            .error "Invalid duration calculated for session"
          else
            let store' := storeUpdate s.store sess.id
              (fun r => { r with duration := some duration, status := .Processing })
            let slot' :=
              some { sess with status := .Processing, duration := some duration }
            .ok (path,
              { store := store', slot := slot'
                pending := s.pending ++ [sess.id], nextId := s.nextId })
    | .Idle =>
      .error "Cannot stop recording: no recording in progress (session is Idle)"
    | .Processing =>
      .error "Cannot stop recording: session is already being processed"
    | .Completed =>
      .error "Cannot stop recording: session has already been completed"
    | .Failed => .error "Cannot stop recording: session has failed"
    | .Interrupted => .error "Cannot stop recording: session was interrupted"

/-- Duration computed by the disconnect and shutdown handlers: set only when
strictly positive (meeting.rs lines 1663-1676 and 2021-2034). -/
def partialDuration (store : List Session) (id : Nat) (now : Int) : Option Int :=
  match storeGet store id with
  | some row =>
    let d := now - row.created_at
    if 0 < d then some d else none
  | none => none

/-- `handle_mic_disconnect` (meeting.rs lines 1591-1778).  Only acts when the
slot session is Recording: finalizes the sink, computes the partial duration,
marks the row Failed with `"Microphone disconnected: <error>"` (setting the
duration only when computed), and updates the slot likewise. -/
def handle_mic_disconnect (s : EngineState) (now : Int)
    (error_message : String) : EngineState :=
  match s.slot with
  | none => s
  | some sess =>
    match sess.status with
    | .Recording =>
      let duration := partialDuration s.store sess.id now
      let errMsg := "Microphone disconnected: " ++ error_message
      let store' := storeUpdate s.store sess.id (fun r =>
        match duration with
        | some d =>
          { r with status := .Failed, error_message := some errMsg
                   duration := some d }
        | none => { r with status := .Failed, error_message := some errMsg })
      { s with store := store'
               slot := some { sess with status := .Failed
                                        error_message := some errMsg
                                        duration := duration } }
    | _ => s

/-- `handle_app_shutdown` (meeting.rs lines 1948-2104).  Only acts when the
slot session is Recording: finalizes the sink, computes the partial duration,
marks the row Interrupted (setting the duration only when computed) and
clears the in-memory state; returns whether a recording was interrupted. -/
def handle_app_shutdown (s : EngineState) (now : Int) : Bool × EngineState :=
  match s.slot with
  | none => (false, s)
  | some sess =>
    match sess.status with
    | .Recording =>
      let duration := partialDuration s.store sess.id now
      let msg := "Session interrupted due to app shutdown"
      let store' := storeUpdate s.store sess.id (fun r =>
        match duration with
        | some d =>
          { r with status := .Interrupted, error_message := some msg
                   duration := some d }
        | none => { r with status := .Interrupted, error_message := some msg })
      (true, { store := store', slot := none, pending := s.pending
               nextId := s.nextId })
    | _ => (false, s)

/-- The `retry_transcription` command (commands/meeting.rs lines 236-333)
together with `retry_transcription_for_session` (meeting.rs lines 586-618).
Guard: the row exists, its status is Failed, Interrupted or Completed, and it
has an audio path.  The row moves to Processing; the slot is updated when it
holds the same session, adopted when empty, and left alone otherwise; a
transcription worker is spawned. -/
def retry_transcription (s : EngineState) (id : Nat) :
    Except String (String × EngineState) :=
  match storeGet s.store id with
  | none => .error "Session not found"
  | some sess =>
    if retryableStatus sess.status then
      match sess.audio_path with
      | none => .error "Session has no audio file to transcribe"
      | some path =>
        let store' := storeUpdate s.store id
          (fun r => { r with status := .Processing })
        let slot' :=
          match s.slot with
          | some cur =>
            if cur.id = id then
              some { cur with status := .Processing, error_message := none }
            else
              some cur
          | none => some { sess with status := .Processing, error_message := none }
        .ok (path,
          { store := store', slot := slot', pending := s.pending ++ [id]
            nextId := s.nextId })
    else
      .error "Cannot retry transcription: session status is not retryable"

/-- A transcription worker delivering success
(`save_transcript_and_update_status`, meeting.rs lines 1794-1852): the row
gets the transcript path and status Completed; the in-memory slot is taken
and re-stored updated only when it holds the same session id (a mismatching
slot is dropped). -/
def worker_complete (s : EngineState) (id : Nat) : EngineState :=
  let store' := storeUpdate s.store id (fun r =>
    { r with transcript_path := some (transcriptFileName id)
             status := .Completed })
  let slot' :=
    match s.slot with
    | some cur =>
      if cur.id = id then
        some { cur with transcript_path := some (transcriptFileName id)
                        status := .Completed }
      else
        none
    | none => none
  { s with store := store', slot := slot' }

/-- A transcription worker delivering failure (the error arm of the worker
spawned in `stop_recording`, meeting.rs lines 1525-1569): when the row
exists, `update_session_status_with_error` marks it Failed with the message
and the in-memory slot is taken and re-stored updated only when it holds the
same id (a mismatching slot is dropped); when the row does not exist the
status update errors and nothing changes. -/
def worker_failed (s : EngineState) (id : Nat) (msg : String) : EngineState :=
  match storeGet s.store id with
  | none => s
  | some _ =>
    let errMsg := "Transcription failed: " ++ msg
    let store' := storeUpdate s.store id (fun r =>
      { r with status := .Failed, error_message := some errMsg })
    let slot' :=
      match s.slot with
      | some cur =>
        if cur.id = id then
          some { cur with status := .Failed, error_message := some errMsg }
        else
          none
      | none => none
    { s with store := store', slot := slot' }

/-- The operations a run of the engine is made of. -/
inductive Op where
  | start (now : Int) (src : AudioSourceType)
  | stop (now : Int) (finalizeOk : Bool)
  | disconnect (now : Int) (error_message : String)
  | shutdown (now : Int)
  | retry (id : Nat)
  | workerDone (id : Nat)
  | workerFailed (id : Nat) (msg : String)

/-- Whether an operation is a retry. -/
def Op.isRetry : Op → Bool
  | .retry _ => true
  | _ => false

/-- Apply one operation; a rejected command leaves the state unchanged, and a
worker result fires only when that worker is actually in flight. -/
def engineStep (s : EngineState) (op : Op) : EngineState :=
  match op with
  | .start now src =>
    match start_recording s now src with
    | .ok s' => s'
    | .error _ => s
  | .stop now fin =>
    match stop_recording s now fin with
    | .ok (_, s') => s'
    | .error _ => s
  | .disconnect now msg => handle_mic_disconnect s now msg
  | .shutdown now => (handle_app_shutdown s now).2
  | .retry id =>
    match retry_transcription s id with
    | .ok (_, s') => s'
    | .error _ => s
  | .workerDone id =>
    if id ∈ s.pending then
      worker_complete { s with pending := s.pending.erase id } id
    else s
  | .workerFailed id msg =>
    if id ∈ s.pending then
      worker_failed { s with pending := s.pending.erase id } id msg
    else s

/-- Run a sequence of engine operations from a state. -/
def execOps (s : EngineState) (ops : List Op) : EngineState :=
  ops.foldl engineStep s

/-- A status that counts as active for invariant 1/4 of the spec. -/
def isActive (st : MeetingStatus) : Bool :=
  match st with
  | .Recording => true
  | .Processing => true
  | _ => false

/-- Session `i` is active in state `s`: some store row with id `i` has an
active status, or the in-memory slot holds session `i` with an active
status. -/
def sessionActive (s : EngineState) (i : Nat) : Bool :=
  s.store.any (fun r => r.id = i && isActive r.status) ||
    (match s.slot with
     | some cur => cur.id = i && isActive cur.status
     | none => false)

/-- At most one session is active across the store and the slot. -/
def atMostOneActive (s : EngineState) : Prop :=
  ∀ i j : Nat, sessionActive s i = true → sessionActive s j = true → i = j

/-- A run that ends with two simultaneously active sessions: start and stop a
session, let its transcription worker fail, start a second session, then
retry the first while the second is still recording.  The retry command only
checks the retried session's own status, so session 0 reaches Processing
while session 1 is Recording. -/
def c1Trace : List Op :=
  [ .start 0 .MicrophoneOnly, .stop 1 true, .workerFailed 0 "stt error",
    .start 2 .MicrophoneOnly, .retry 0 ]

/-- Every active store row is the in-memory slot's session: the slot is
`some cur` with `cur.id` equal to the row's id and `cur` active too. -/
def SlotCoversActive (s : EngineState) : Prop :=
  ∀ r ∈ s.store, isActive r.status = true →
    ∃ cur, s.slot = some cur ∧ cur.id = r.id ∧ isActive cur.status = true

/-- In a retry-free run, workers are in flight only for the Processing
session currently held by the slot, and there is at most one. -/
def PendingOk (s : EngineState) : Prop :=
  s.pending = [] ∨
    ∃ cur, s.slot = some cur ∧ cur.status = .Processing ∧ s.pending = [cur.id]

/-- Inductive invariant for retry-free runs. -/
def EngineInv (s : EngineState) : Prop := SlotCoversActive s ∧ PendingOk s

/-- A concrete state with one session currently Recording, shared by the
claim witnesses. -/
def recSession : Session :=
  { id := 0, title := "Meeting 0", created_at := 5, duration := none
    status := .Recording, audio_path := some "0/audio.wav"
    transcript_path := none, error_message := none
    audio_source := .MicrophoneOnly }

/-- Engine state holding `recSession` in the store and the slot. -/
def recState : EngineState :=
  { store := [recSession], slot := some recSession, pending := [], nextId := 1 }

/-!
## Startup sweep (`check_interrupted_sessions`, meeting.rs lines 2118-2173)

The single SQL statement
`UPDATE meeting_sessions SET status = interrupted, error_message = ... WHERE
status = recording` acts row-wise on the table.
-/

/-- The recovery message written by the startup sweep. -/
def recoveredMsg : String :=
  "Session interrupted due to app shutdown (recovered on next launch)"

/-- Effect of the sweep's UPDATE on one row. -/
def sweepRow (r : Session) : Session :=
  if r.status = .Recording then
    { r with status := .Interrupted, error_message := some recoveredMsg }
  else r

/-- The UPDATE of `check_interrupted_sessions`, applied to the whole table. -/
def check_interrupted_sessions_sweep (rows : List Session) : List Session :=
  rows.map sweepRow

/-!
## Theorems
-/

/-- Claim C10: status persistence round-trips, and every unrecognized string
decodes to `Idle` rather than failing. -/
theorem c10_status_string_roundtrip :
    (∀ st : MeetingStatus, string_to_status (status_to_string st) = st) ∧
    (∀ s : String, s ≠ "idle" → s ≠ "recording" → s ≠ "processing" →
      s ≠ "completed" → s ≠ "failed" → s ≠ "interrupted" →
      string_to_status s = .Idle) := by
  constructor
  · intro st
    cases st <;> rfl
  · intro s h1 h2 h3 h4 h5 h6
    simp [string_to_status, h1, h2, h3, h4, h5, h6]

/-- Witness for C10 at concrete inputs: the round trip on `Recording` and the
fallback on the unrecognized string "bogus". -/
theorem c10_status_string_roundtrip_witness :
    string_to_status (status_to_string .Recording) = .Recording ∧
    string_to_status "bogus" = .Idle :=
  ⟨c10_status_string_roundtrip.1 .Recording,
   c10_status_string_roundtrip.2 "bogus" (by decide) (by decide) (by decide)
     (by decide) (by decide) (by decide)⟩

/-- Claim C3: the transitions the system permits (the `validate_state_transition`
arms together with the retry command's Failed/Interrupted/Completed →
Processing path) are exactly the nine listed pairs — in particular
Completed → Processing is accepted — and every other pair is rejected
(`validate_state_transition` returns the error and the retry guard refuses). -/
theorem c3_transitions_exactly_listed :
    (∀ from_ to_ : MeetingStatus,
      transitionPermitted from_ to_ = true ↔
        (from_, to_) ∈ spec_listed_transitions) ∧
    transitionPermitted .Completed .Processing = true ∧
    (∀ from_ to_ : MeetingStatus, transitionPermitted from_ to_ = false →
      validate_state_transition from_ to_ = .error "Invalid state transition") := by
  refine ⟨?_, by decide, ?_⟩
  · intro from_ to_
    cases from_ <;> cases to_ <;> decide
  · intro from_ to_ h
    cases from_ <;> cases to_ <;> first
      | rfl
      | exact absurd h (by decide)

/-- Every single sink event preserves WAV validity. -/
theorem sinkStep_preserves_validWav (s : SinkState) (op : SinkOp)
    (h : validWav s.file) : validWav (sinkStep s op).file := by
  obtain ⟨hc, hr, hb, hd⟩ := h
  cases op with
  | write xs =>
    simp only [sinkStep, write_samples]
    split
    · exact ⟨hc, hr, hb, hd⟩
    · split
      · exact ⟨hc, hr, hb, hd⟩
      · exact ⟨hc, hr, hb, rfl⟩
  | finalize a =>
    simp only [sinkStep, finalize_with_timeout]
    split
    · split
      · exact ⟨hc, hr, hb, hd⟩
      · exact ⟨hc, hr, hb, rfl⟩
    · exact ⟨hc, hr, hb, hd⟩

/-- Validity is preserved along any run of the sink. -/
theorem runSink_preserves_validWav (ops : List SinkOp) (s : SinkState)
    (h : validWav s.file) : validWav (runSink s ops).file := by
  induction ops generalizing s with
  | nil => exact h
  | cons op rest ih =>
    exact ih (sinkStep s op) (sinkStep_preserves_validWav s op h)

/-- Claim C2: for every sequence of producer writes and finalization
attempts — including runs whose finalization timed out (`finalize false`) and
never completed — the session's WAV file is a valid 16-bit 16 kHz mono PCM
file whose data-size header field equals the number of data bytes.  In
particular this holds for the file `stop_recording` leaves behind when it
returns successfully, since `stop_recording` performs exactly one
finalization attempt on such a sink and succeeds either way. -/
theorem c2_stop_recording_wav_valid (ops : List SinkOp) :
    validWav (runSink initSink ops).file :=
  runSink_preserves_validWav ops initSink
    ⟨rfl, rfl, rfl, rfl⟩

/-- A write on a closed sink returns Ok and changes nothing. -/
theorem write_samples_closed (s : SinkState) (xs : List ℚ)
    (h : s.closed = true) : write_samples s xs = (.ok (), s) := by
  simp [write_samples, h]

/-- `finalize_with_timeout` always leaves the `closed` flag set. -/
theorem finalize_sets_closed (s : SinkState) (acquired : Bool) :
    (finalize_with_timeout s acquired).2.closed = true := by
  simp only [finalize_with_timeout]
  split
  · split <;> rfl
  · rfl

/-- On a closed sink, any sequence of writes returns Ok throughout and leaves
the state untouched. -/
theorem writeMany_closed (chunks : List (List ℚ)) (s : SinkState)
    (h : s.closed = true) :
    allWritesOk s chunks = true ∧ writeMany s chunks = s := by
  induction chunks generalizing s with
  | nil => exact ⟨rfl, rfl⟩
  | cons xs rest ih =>
    have hw := write_samples_closed s xs h
    obtain ⟨h1, h2⟩ := ih s h
    refine ⟨?_, ?_⟩
    · simp only [allWritesOk, hw, exceptOk, Bool.true_and]
      exact h1
    · simp only [writeMany, List.foldl_cons, hw]
      exact h2

/-- Claim C5: after `finalize_with_timeout` has returned — whether it
finalized the writer or timed out — every subsequent `write_samples` call
returns Ok and the bytes of the WAV file on disk are unchanged. -/
theorem c5_writes_after_finalize_noop (s : SinkState) (acquired : Bool)
    (chunks : List (List ℚ)) :
    allWritesOk (finalize_with_timeout s acquired).2 chunks = true ∧
    (writeMany (finalize_with_timeout s acquired).2 chunks).file =
      (finalize_with_timeout s acquired).2.file := by
  obtain ⟨h1, h2⟩ := writeMany_closed chunks (finalize_with_timeout s acquired).2
    (finalize_sets_closed s acquired)
  exact ⟨h1, by rw [h2]⟩

/-- Claim C9: `resample` is the identity when the source and target rates are
equal, and for every non-empty input and positive source rate the output
length is `ceil(len * to / from)`. -/
theorem c9_resample_identity_and_length :
    (∀ (xs : List ℚ) (r : Nat), resample xs r r = xs) ∧
    (∀ (xs : List ℚ) (r1 r2 : Nat), xs ≠ [] → 0 < r1 →
      (resample xs r1 r2).length =
        (Int.ceil (((xs.length : ℚ) * (r2 : ℚ)) / (r1 : ℚ))).toNat) := by
  constructor
  · intro xs r
    simp [resample]
  · intro xs r1 r2 _ hr1
    have hr1Q : (r1 : ℚ) ≠ 0 := by
      exact_mod_cast Nat.pos_iff_ne_zero.mp hr1
    by_cases hEq : r1 = r2
    · subst hEq
      simp only [resample, if_pos rfl]
      rw [mul_div_assoc, div_self hr1Q, mul_one]
      rw [Int.ceil_natCast]
      exact (Int.toNat_natCast xs.length).symm
    · simp only [resample, if_neg hEq]
      rw [List.length_map, List.length_range, mul_div_assoc]

/-- Witness for C9 at concrete inputs: identity at a matching rate, and the
exact output length when upsampling two samples from 8 kHz to 16 kHz. -/
theorem c9_resample_identity_and_length_witness :
    resample [(1 : ℚ), 2, 3] 16000 16000 = [(1 : ℚ), 2, 3] ∧
    (resample [(0 : ℚ), 1] 8000 16000).length =
      (Int.ceil ((((([(0 : ℚ), 1]).length : ℚ)) * (16000 : ℚ)) / (8000 : ℚ))).toNat :=
  ⟨c9_resample_identity_and_length.1 [(1 : ℚ), 2, 3] 16000,
   c9_resample_identity_and_length.2 [(0 : ℚ), 1] 8000 16000 (by decide) (by decide)⟩

/-- An absolute path is rejected by `validate_safe_path`. -/
theorem validate_safe_path_rejects_absolute (ex : FsPath → Bool)
    (canon : FsPath → Option FsPath) (base rel : FsPath)
    (h : isAbsolutePath rel = true) :
    exceptOk (validate_safe_path ex canon base rel) = false := by
  simp [validate_safe_path, h, exceptOk]

/-- A parent-directory component anywhere makes `checkComponents` fail. -/
theorem checkComponents_of_parentDir (rel : List PathComp)
    (h : PathComp.parentDir ∈ rel) : ∃ e, checkComponents rel = some e := by
  induction rel with
  | nil => cases h
  | cons c rest ih =>
    cases c with
    | normal n =>
      rcases h with _ | h
      exact ih (by assumption)
    | parentDir => exact ⟨_, rfl⟩
    | rootDir => exact ⟨_, rfl⟩
    | curDir =>
      rcases h with _ | h
      exact ih (by assumption)

/-- A path containing a parent-directory component is rejected. -/
theorem validate_safe_path_rejects_parentDir (ex : FsPath → Bool)
    (canon : FsPath → Option FsPath) (base rel : FsPath)
    (h : PathComp.parentDir ∈ rel) :
    exceptOk (validate_safe_path ex canon base rel) = false := by
  obtain ⟨e, he⟩ := checkComponents_of_parentDir rel h
  unfold validate_safe_path
  split
  · rfl
  · rw [he]
    rfl

/-- An existing path whose canonical form escapes the canonical meetings
root is rejected. -/
theorem validate_safe_path_rejects_escape (ex : FsPath → Bool)
    (canon : FsPath → Option FsPath) (base rel : FsPath)
    (cb cf : FsPath)
    (hcb : canon base = some cb)
    (hex : ex (joinPath base rel) = true)
    (hcf : canon (joinPath base rel) = some cf)
    (hesc : List.isPrefixOf cb cf = false) :
    exceptOk (validate_safe_path ex canon base rel) = false := by
  unfold validate_safe_path
  split
  · rfl
  · split
    · rfl
    · simp only [hcb, hex, hcf, hesc, if_true, Bool.false_eq_true, if_false]
      rfl

/-- A failed `validate_safe_path` makes `validate_safe_write_path` fail too. -/
theorem validate_safe_write_path_propagates (ex : FsPath → Bool)
    (canon : FsPath → Option FsPath) (base rel : FsPath)
    (h : exceptOk (validate_safe_path ex canon base rel) = false) :
    exceptOk (validate_safe_write_path ex canon base rel) = false := by
  unfold validate_safe_write_path
  cases hv : validate_safe_path ex canon base rel with
  | error e => rfl
  | ok p => rw [hv] at h; exact absurd h (by simp [exceptOk])

/-- Claim C8: for every host-supplied relative path, validation rejects it
before any file I/O when the path is absolute, when it contains a
parent-directory component, or when the canonicalized full path does not
remain under the meetings root; and the same validation guards all four
host-facing file accesses uniformly — the transcript read, the summary read,
the transcript read of summary generation, and the summary write. -/
theorem c8_path_validation_rejections
    (ex : FsPath → Bool) (canon : FsPath → Option FsPath)
    (base rel : FsPath) :
    (isAbsolutePath rel = true →
      exceptOk (transcript_read_resolve ex canon base rel) = false ∧
      exceptOk (summary_read_resolve ex canon base rel) = false ∧
      exceptOk (summary_transcript_resolve ex canon base rel) = false ∧
      exceptOk (summary_write_resolve ex canon base rel) = false) ∧
    (PathComp.parentDir ∈ rel →
      exceptOk (transcript_read_resolve ex canon base rel) = false ∧
      exceptOk (summary_read_resolve ex canon base rel) = false ∧
      exceptOk (summary_transcript_resolve ex canon base rel) = false ∧
      exceptOk (summary_write_resolve ex canon base rel) = false) ∧
    (∀ cb cf : FsPath, canon base = some cb →
      ex (joinPath base rel) = true →
      canon (joinPath base rel) = some cf →
      List.isPrefixOf cb cf = false →
      exceptOk (transcript_read_resolve ex canon base rel) = false ∧
      exceptOk (summary_read_resolve ex canon base rel) = false ∧
      exceptOk (summary_transcript_resolve ex canon base rel) = false ∧
      exceptOk (summary_write_resolve ex canon base rel) = false) := by
  refine ⟨fun h => ?_, fun h => ?_, fun cb cf hcb hex hcf hesc => ?_⟩
  · have hv := validate_safe_path_rejects_absolute ex canon base rel h
    exact ⟨hv, hv, hv, validate_safe_write_path_propagates ex canon base rel hv⟩
  · have hv := validate_safe_path_rejects_parentDir ex canon base rel h
    exact ⟨hv, hv, hv, validate_safe_write_path_propagates ex canon base rel hv⟩
  · have hv := validate_safe_path_rejects_escape ex canon base rel cb cf
      hcb hex hcf hesc
    exact ⟨hv, hv, hv, validate_safe_write_path_propagates ex canon base rel hv⟩

/-- Witness for C8 at concrete inputs: the relative path `../secret` is
rejected at all four access sites, with a trivial filesystem oracle. -/
theorem c8_path_validation_rejections_witness :
    exceptOk (transcript_read_resolve (fun _ => false) (fun p => some p)
      [PathComp.normal "meetings"] [PathComp.parentDir, PathComp.normal "secret"]) = false ∧
    exceptOk (summary_write_resolve (fun _ => false) (fun p => some p)
      [PathComp.normal "meetings"] [PathComp.parentDir, PathComp.normal "secret"]) = false := by
  have h := (c8_path_validation_rejections (fun _ => false) (fun p => some p)
    [PathComp.normal "meetings"] [PathComp.parentDir, PathComp.normal "secret"]).2.1
    (by decide)
  exact ⟨h.1, h.2.2.2⟩

/-- Counterexample to claim C1: after `c1Trace`, sessions 0 and 1 are both
active (0 is Processing in the store, 1 is Recording in the store and the
slot), so the at-most-one-active invariant does not hold of every reachable
state. -/
theorem c1_counterexample : ¬ atMostOneActive (execOps initEngine c1Trace) := by
  intro h
  exact absurd (h 0 1 (by decide) (by decide)) (by decide)

/-- Rows of an updated store come from rows of the store, transformed when
the id matches. -/
theorem mem_storeUpdate {store : List Session} {id : Nat}
    {f : Session → Session} {r' : Session} (h : r' ∈ storeUpdate store id f) :
    ∃ r ∈ store, r' = if r.id = id then f r else r := by
  simp only [storeUpdate, List.mem_map] at h
  obtain ⟨r, hr, hEq⟩ := h
  exact ⟨r, hr, hEq.symm⟩

/-- `startRecordingBody` establishes the invariant when no row is active and
no worker is in flight. -/
theorem engineInv_startRecordingBody (s : EngineState) (now : Int)
    (src : AudioSourceType)
    (hNoActive : ∀ r ∈ s.store, isActive r.status = false)
    (hPending : s.pending = []) :
    EngineInv (startRecordingBody s now src) := by
  constructor
  · intro r' hr' hact
    obtain ⟨r2, hr2, hEq2⟩ := mem_storeUpdate hr'
    obtain ⟨r1, hr1, hEq1⟩ := mem_storeUpdate hr2
    refine ⟨_, rfl, ?_, rfl⟩
    show s.nextId = r'.id
    rcases List.mem_append.mp hr1 with hOld | hNew
    · by_cases hid : r1.id = s.nextId
      · have h2id : r2.id = s.nextId := by
          rw [hEq1, if_pos hid]
          exact hid
        rw [hEq2, if_pos h2id]
        exact h2id.symm
      · have h2 : r2 = r1 := by rw [hEq1, if_neg hid]
        have : r' = r1 := by
          rw [hEq2, h2, if_neg hid]
        rw [this] at hact
        exact absurd hact (by rw [hNoActive r1 hOld]; decide)
    · have hsess : r1.id = s.nextId := by
        rw [List.mem_singleton.mp hNew]
      have h2id : r2.id = s.nextId := by
        rw [hEq1, if_pos hsess]
        exact hsess
      rw [hEq2, if_pos h2id]
      exact h2id.symm
  · left
    exact hPending

/-- `engineStep` on a start operation preserves the invariant. -/
theorem engineInv_step_start (s : EngineState) (now : Int)
    (src : AudioSourceType) (h : EngineInv s) :
    EngineInv (engineStep s (.start now src)) := by
  obtain ⟨hA, hB⟩ := h
  have hBody : (∀ cur, s.slot = some cur → isActive cur.status = false) →
      EngineInv (startRecordingBody s now src) := by
    intro hSlotInactive
    have hNoActive : ∀ r ∈ s.store, isActive r.status = false := by
      intro r hr
      by_contra hact
      obtain ⟨cur, hcur, _, hcuract⟩ :=
        hA r hr (Bool.of_not_eq_false hact)
      rw [hSlotInactive cur hcur] at hcuract
      exact absurd hcuract (by decide)
    have hPending : s.pending = [] := by
      rcases hB with hP | ⟨cur, hcur, hproc, _⟩
      · exact hP
      · have := hSlotInactive cur hcur
        rw [hproc] at this
        exact absurd this (by decide)
    exact engineInv_startRecordingBody s now src hNoActive hPending
  cases hslot : s.slot with
  | none =>
    have hstep : engineStep s (.start now src) = startRecordingBody s now src := by
      simp [engineStep, start_recording, hslot]
    rw [hstep]
    exact hBody (by intro cur hcur; rw [hslot] at hcur; cases hcur)
  | some cur =>
    cases hst : cur.status
    case Recording =>
      have hstep : engineStep s (.start now src) = s := by
        simp [engineStep, start_recording, hslot, hst]
      rw [hstep]
      exact ⟨hA, hB⟩
    case Processing =>
      have hstep : engineStep s (.start now src) = s := by
        simp [engineStep, start_recording, hslot, hst]
      rw [hstep]
      exact ⟨hA, hB⟩
    all_goals
      have hstep : engineStep s (.start now src) = startRecordingBody s now src := by
        simp [engineStep, start_recording, hslot, hst]
    all_goals
      rw [hstep]
    all_goals
      exact hBody (by
        intro c hc
        rw [hslot] at hc
        cases hc
        rw [hst]
        rfl)

/-- `engineStep` on a stop operation preserves the invariant. -/
theorem engineInv_step_stop (s : EngineState) (now : Int) (fin_ : Bool)
    (h : EngineInv s) : EngineInv (engineStep s (.stop now fin_)) := by
  obtain ⟨hA, hB⟩ := h
  cases hslot : s.slot with
  | none =>
    have hstep : engineStep s (.stop now fin_) = s := by
      simp [engineStep, stop_recording, hslot]
    rw [hstep]
    exact ⟨hA, hB⟩
  | some sess =>
    cases hst : sess.status
    case Recording =>
      cases hap : sess.audio_path with
      | none =>
        have hstep : engineStep s (.stop now fin_) = s := by
          simp [engineStep, stop_recording, hslot, hst, hap]
        rw [hstep]
        exact ⟨hA, hB⟩
      | some path =>
        cases hget : storeGet s.store sess.id with
        | none =>
          have hstep : engineStep s (.stop now fin_) = s := by
            simp [engineStep, stop_recording, hslot, hst, hap, hget]
          rw [hstep]
          exact ⟨hA, hB⟩
        | some row =>
          by_cases hd : now - row.created_at < 0
          · have hstep : engineStep s (.stop now fin_) = s := by
              simp [engineStep, stop_recording, hslot, hst, hap, hget, hd]
            rw [hstep]
            exact ⟨hA, hB⟩
          · have hstep : engineStep s (.stop now fin_) =
                { store := storeUpdate s.store sess.id (fun r =>
                    { r with duration := some (now - row.created_at)
                             status := .Processing })
                  slot := some { sess with status := .Processing
                                           duration := some (now - row.created_at) }
                  pending := s.pending ++ [sess.id], nextId := s.nextId } := by
              simp [engineStep, stop_recording, hslot, hst, hap, hget, hd]
            rw [hstep]
            constructor
            · intro r' hr' hact
              obtain ⟨r, hr, hEq⟩ := mem_storeUpdate hr'
              by_cases hid : r.id = sess.id
              · refine ⟨_, rfl, ?_, rfl⟩
                show sess.id = r'.id
                rw [hEq, if_pos hid]
                exact hid.symm
              · have hEq' : r' = r := by rw [hEq, if_neg hid]
                rw [hEq'] at hact
                obtain ⟨cur, hcur, hcid, _⟩ := hA r hr hact
                rw [hslot] at hcur
                cases hcur
                exact absurd hcid.symm hid
            · right
              refine ⟨_, rfl, rfl, ?_⟩
              have hPending : s.pending = [] := by
                rcases hB with hP | ⟨cur, hcur, hproc, _⟩
                · exact hP
                · rw [hslot] at hcur
                  cases hcur
                  rw [hst] at hproc
                  cases hproc
              rw [hPending]
              rfl
    all_goals
      have hstep : engineStep s (.stop now fin_) = s := by
        simp [engineStep, stop_recording, hslot, hst]
    all_goals
      rw [hstep]
    all_goals
      exact ⟨hA, hB⟩

/-- `engineStep` on a disconnect preserves the invariant. -/
theorem engineInv_step_disconnect (s : EngineState) (now : Int) (msg : String)
    (h : EngineInv s) : EngineInv (engineStep s (.disconnect now msg)) := by
  obtain ⟨hA, hB⟩ := h
  cases hslot : s.slot with
  | none =>
    have hstep : engineStep s (.disconnect now msg) = s := by
      simp [engineStep, handle_mic_disconnect, hslot]
    rw [hstep]
    exact ⟨hA, hB⟩
  | some sess =>
    cases hst : sess.status
    case Recording =>
      cases hdur : partialDuration s.store sess.id now with
      | none =>
        have hstep : engineStep s (.disconnect now msg) =
            { s with
              store := storeUpdate s.store sess.id (fun r =>
                { r with status := .Failed
                         error_message :=
                           some ("Microphone disconnected: " ++ msg) })
              slot := some { sess with status := .Failed
                                       error_message :=
                                         some ("Microphone disconnected: " ++ msg)
                                       duration := none } } := by
          simp [engineStep, handle_mic_disconnect, hslot, hst, hdur]
        rw [hstep]
        constructor
        · intro r' hr' hact
          obtain ⟨r, hr, hEq⟩ := mem_storeUpdate hr'
          by_cases hid : r.id = sess.id
          · rw [hEq, if_pos hid] at hact
            simp [isActive] at hact
          · have hEq' : r' = r := by rw [hEq, if_neg hid]
            rw [hEq'] at hact
            obtain ⟨cur, hcur, hcid, _⟩ := hA r hr hact
            rw [hslot] at hcur
            cases hcur
            exact absurd hcid.symm hid
        · left
          show s.pending = []
          rcases hB with hP | ⟨cur, hcur, hproc, _⟩
          · exact hP
          · rw [hslot] at hcur
            cases hcur
            rw [hst] at hproc
            cases hproc
      | some d =>
        have hstep : engineStep s (.disconnect now msg) =
            { s with
              store := storeUpdate s.store sess.id (fun r =>
                { r with status := .Failed
                         error_message :=
                           some ("Microphone disconnected: " ++ msg)
                         duration := some d })
              slot := some { sess with status := .Failed
                                       error_message :=
                                         some ("Microphone disconnected: " ++ msg)
                                       duration := some d } } := by
          simp [engineStep, handle_mic_disconnect, hslot, hst, hdur]
        rw [hstep]
        constructor
        · intro r' hr' hact
          obtain ⟨r, hr, hEq⟩ := mem_storeUpdate hr'
          by_cases hid : r.id = sess.id
          · rw [hEq, if_pos hid] at hact
            simp [isActive] at hact
          · have hEq' : r' = r := by rw [hEq, if_neg hid]
            rw [hEq'] at hact
            obtain ⟨cur, hcur, hcid, _⟩ := hA r hr hact
            rw [hslot] at hcur
            cases hcur
            exact absurd hcid.symm hid
        · left
          show s.pending = []
          rcases hB with hP | ⟨cur, hcur, hproc, _⟩
          · exact hP
          · rw [hslot] at hcur
            cases hcur
            rw [hst] at hproc
            cases hproc
    all_goals
      have hstep : engineStep s (.disconnect now msg) = s := by
        simp [engineStep, handle_mic_disconnect, hslot, hst]
    all_goals
      rw [hstep]
    all_goals
      exact ⟨hA, hB⟩

/-- `engineStep` on an app shutdown preserves the invariant. -/
theorem engineInv_step_shutdown (s : EngineState) (now : Int)
    (h : EngineInv s) : EngineInv (engineStep s (.shutdown now)) := by
  obtain ⟨hA, hB⟩ := h
  cases hslot : s.slot with
  | none =>
    have hstep : engineStep s (.shutdown now) = s := by
      simp [engineStep, handle_app_shutdown, hslot]
    rw [hstep]
    exact ⟨hA, hB⟩
  | some sess =>
    cases hst : sess.status
    case Recording =>
      have hNoActiveOther : ∀ r ∈ s.store, r.id ≠ sess.id →
          isActive r.status = true → False := by
        intro r hr hid hact
        obtain ⟨cur, hcur, hcid, _⟩ := hA r hr hact
        rw [hslot] at hcur
        cases hcur
        exact absurd hcid.symm hid
      have hPending : s.pending = [] := by
        rcases hB with hP | ⟨cur, hcur, hproc, _⟩
        · exact hP
        · rw [hslot] at hcur
          cases hcur
          rw [hst] at hproc
          cases hproc
      cases hdur : partialDuration s.store sess.id now with
      | none =>
        have hstep : engineStep s (.shutdown now) =
            { store := storeUpdate s.store sess.id (fun r =>
                { r with status := .Interrupted
                         error_message :=
                           some "Session interrupted due to app shutdown" })
              slot := none, pending := s.pending, nextId := s.nextId } := by
          simp [engineStep, handle_app_shutdown, hslot, hst, hdur]
        rw [hstep]
        constructor
        · intro r' hr' hact
          obtain ⟨r, hr, hEq⟩ := mem_storeUpdate hr'
          by_cases hid : r.id = sess.id
          · rw [hEq, if_pos hid] at hact
            simp [isActive] at hact
          · have hEq' : r' = r := by rw [hEq, if_neg hid]
            rw [hEq'] at hact
            exact (hNoActiveOther r hr hid hact).elim
        · left
          exact hPending
      | some d =>
        have hstep : engineStep s (.shutdown now) =
            { store := storeUpdate s.store sess.id (fun r =>
                { r with status := .Interrupted
                         error_message :=
                           some "Session interrupted due to app shutdown"
                         duration := some d })
              slot := none, pending := s.pending, nextId := s.nextId } := by
          simp [engineStep, handle_app_shutdown, hslot, hst, hdur]
        rw [hstep]
        constructor
        · intro r' hr' hact
          obtain ⟨r, hr, hEq⟩ := mem_storeUpdate hr'
          by_cases hid : r.id = sess.id
          · rw [hEq, if_pos hid] at hact
            simp [isActive] at hact
          · have hEq' : r' = r := by rw [hEq, if_neg hid]
            rw [hEq'] at hact
            exact (hNoActiveOther r hr hid hact).elim
        · left
          exact hPending
    all_goals
      have hstep : engineStep s (.shutdown now) = s := by
        simp [engineStep, handle_app_shutdown, hslot, hst]
    all_goals
      rw [hstep]
    all_goals
      exact ⟨hA, hB⟩

/-- `engineStep` on a worker success preserves the invariant. -/
theorem engineInv_step_workerDone (s : EngineState) (id : Nat)
    (h : EngineInv s) : EngineInv (engineStep s (.workerDone id)) := by
  obtain ⟨hA, hB⟩ := h
  by_cases hmem : id ∈ s.pending
  · rcases hB with hP | ⟨cur, hslot, hproc, hpend⟩
    · rw [hP] at hmem
      cases hmem
    · have hid : id = cur.id := by
        rw [hpend] at hmem
        exact List.mem_singleton.mp hmem
      subst hid
      have hstep : engineStep s (.workerDone cur.id) =
          { store := storeUpdate s.store cur.id (fun r =>
              { r with transcript_path := some (transcriptFileName cur.id)
                       status := .Completed })
            slot := some { cur with
                           transcript_path := some (transcriptFileName cur.id)
                           status := .Completed }
            pending := [], nextId := s.nextId } := by
        simp [engineStep, hmem, worker_complete, hslot, hpend]
      rw [hstep]
      constructor
      · intro r' hr' hact
        obtain ⟨r, hr, hEq⟩ := mem_storeUpdate hr'
        by_cases hidr : r.id = cur.id
        · rw [hEq, if_pos hidr] at hact
          simp [isActive] at hact
        · have hEq' : r' = r := by rw [hEq, if_neg hidr]
          rw [hEq'] at hact
          obtain ⟨cur2, hcur2, hcid, _⟩ := hA r hr hact
          rw [hslot] at hcur2
          cases hcur2
          exact absurd hcid.symm hidr
      · left
        rfl
  · have hstep : engineStep s (.workerDone id) = s := by
      simp [engineStep, hmem]
    rw [hstep]
    exact ⟨hA, hB⟩

/-- `engineStep` on a worker failure preserves the invariant. -/
theorem engineInv_step_workerFailed (s : EngineState) (id : Nat) (msg : String)
    (h : EngineInv s) : EngineInv (engineStep s (.workerFailed id msg)) := by
  obtain ⟨hA, hB⟩ := h
  by_cases hmem : id ∈ s.pending
  · rcases hB with hP | ⟨cur, hslot, hproc, hpend⟩
    · rw [hP] at hmem
      cases hmem
    · have hid : id = cur.id := by
        rw [hpend] at hmem
        exact List.mem_singleton.mp hmem
      subst hid
      cases hget : storeGet s.store cur.id with
      | none =>
        have hstep : engineStep s (.workerFailed cur.id msg) =
            { s with pending := [] } := by
          simp [engineStep, hmem, worker_failed, hget, hpend]
        rw [hstep]
        constructor
        · intro r' hr' hact
          obtain ⟨c, hc, hcid, hcact⟩ := hA r' hr' hact
          exact ⟨c, hc, hcid, hcact⟩
        · left
          rfl
      | some row =>
        have hstep : engineStep s (.workerFailed cur.id msg) =
            { store := storeUpdate s.store cur.id (fun r =>
                { r with status := .Failed
                         error_message :=
                           some ("Transcription failed: " ++ msg) })
              slot := some { cur with status := .Failed
                                      error_message :=
                                        some ("Transcription failed: " ++ msg) }
              pending := [], nextId := s.nextId } := by
          simp [engineStep, hmem, worker_failed, hget, hslot, hpend]
        rw [hstep]
        constructor
        · intro r' hr' hact
          obtain ⟨r, hr, hEq⟩ := mem_storeUpdate hr'
          by_cases hidr : r.id = cur.id
          · rw [hEq, if_pos hidr] at hact
            simp [isActive] at hact
          · have hEq' : r' = r := by rw [hEq, if_neg hidr]
            rw [hEq'] at hact
            obtain ⟨cur2, hcur2, hcid, _⟩ := hA r hr hact
            rw [hslot] at hcur2
            cases hcur2
            exact absurd hcid.symm hidr
        · left
          rfl
  · have hstep : engineStep s (.workerFailed id msg) = s := by
      simp [engineStep, hmem]
    rw [hstep]
    exact ⟨hA, hB⟩

/-- Any retry-free step preserves the invariant. -/
theorem engineInv_step (s : EngineState) (op : Op) (h : EngineInv s)
    (hnr : op.isRetry = false) : EngineInv (engineStep s op) := by
  cases op with
  | start now src => exact engineInv_step_start s now src h
  | stop now fin_ => exact engineInv_step_stop s now fin_ h
  | disconnect now msg => exact engineInv_step_disconnect s now msg h
  | shutdown now => exact engineInv_step_shutdown s now h
  | retry id => exact absurd hnr (by simp [Op.isRetry])
  | workerDone id => exact engineInv_step_workerDone s id h
  | workerFailed id msg => exact engineInv_step_workerFailed s id msg h

/-- The invariant is preserved along any retry-free run. -/
theorem engineInv_exec (ops : List Op) (s : EngineState) (h : EngineInv s)
    (hnr : ∀ op ∈ ops, op.isRetry = false) : EngineInv (execOps s ops) := by
  induction ops generalizing s with
  | nil => exact h
  | cons op rest ih =>
    exact ih (engineStep s op)
      (engineInv_step s op h (hnr op (List.mem_cons_self op rest)))
      (fun o ho => hnr o (List.mem_cons_of_mem op ho))

/-- The initial engine satisfies the invariant. -/
theorem engineInv_init : EngineInv initEngine := by
  constructor
  · intro r hr
    cases hr
  · left
    rfl

/-- An active session id is the slot's id. -/
theorem active_eq_slot_id (s : EngineState) (h : SlotCoversActive s)
    (i : Nat) (hi : sessionActive s i = true) :
    ∃ cur, s.slot = some cur ∧ cur.id = i := by
  rw [sessionActive, Bool.or_eq_true] at hi
  rcases hi with hi | hi
  · rw [List.any_eq_true] at hi
    obtain ⟨r, hr, hcond⟩ := hi
    rw [Bool.and_eq_true, decide_eq_true_eq] at hcond
    obtain ⟨hrid, hract⟩ := hcond
    obtain ⟨cur, hcur, hcid, _⟩ := h r hr hract
    exact ⟨cur, hcur, by rw [hcid, hrid]⟩
  · cases hslot : s.slot with
    | none => rw [hslot] at hi; cases hi
    | some cur =>
      rw [hslot, Bool.and_eq_true, decide_eq_true_eq] at hi
      exact ⟨cur, rfl, hi.1⟩

/-- The invariant implies the at-most-one-active property. -/
theorem atMostOneActive_of_engineInv (s : EngineState) (h : EngineInv s) :
    atMostOneActive s := by
  intro i j hi hj
  obtain ⟨cur1, hc1, hi1⟩ := active_eq_slot_id s h.1 i hi
  obtain ⟨cur2, hc2, hj2⟩ := active_eq_slot_id s h.1 j hj
  rw [hc1] at hc2
  cases hc2
  rw [← hi1, ← hj2]

/-- Claim C1, amended: along every sequence of engine operations that
contains no retry — start, stop, disconnect, shutdown and background worker
results in any order — at most one session has a status in
{Recording, Processing}, across both the store and the in-memory slot.  (The
unamended claim fails on retry: see the counterexample.) -/
theorem c1_amended_at_most_one_active (ops : List Op)
    (hnr : ∀ op ∈ ops, op.isRetry = false) :
    atMostOneActive (execOps initEngine ops) :=
  atMostOneActive_of_engineInv _ (engineInv_exec ops initEngine engineInv_init hnr)

/-- Witness for the amended C1 at a concrete retry-free run: a full session
lifecycle (start, stop, worker success) keeps at most one session active. -/
theorem c1_amended_at_most_one_active_witness :
    atMostOneActive (execOps initEngine
      [.start 0 .MicrophoneOnly, .stop 3 false, .workerDone 0]) :=
  c1_amended_at_most_one_active
    [.start 0 .MicrophoneOnly, .stop 3 false, .workerDone 0]
    (by
      intro op hop
      simp only [List.mem_cons, List.not_mem_nil, or_false] at hop
      rcases hop with h | h | h <;> rw [h] <;> rfl)

/-- Claim C4: when the sink's `finalize_with_timeout` returns a timeout error
(`finalizeOk = false`), `stop_recording` nevertheless returns success — the
session's relative audio path — and moves the session to Processing in both
the store and the slot. -/
theorem c4_stop_succeeds_on_finalize_timeout
    (s : EngineState) (now : Int) (sess row : Session) (path : String)
    (hslot : s.slot = some sess) (hst : sess.status = .Recording)
    (hap : sess.audio_path = some path)
    (hget : storeGet s.store sess.id = some row)
    (hcl : row.created_at ≤ now) :
    ∃ s', stop_recording s now false = .ok (path, s') ∧
      (∃ cur, s'.slot = some cur ∧ cur.status = .Processing) ∧
      (∀ r ∈ s'.store, r.id = sess.id → r.status = .Processing) := by
  have hd : ¬ now - row.created_at < 0 := by omega
  refine ⟨{ store := storeUpdate s.store sess.id (fun r =>
              { r with duration := some (now - row.created_at)
                       status := .Processing })
            slot := some { sess with status := .Processing
                                     duration := some (now - row.created_at) }
            pending := s.pending ++ [sess.id], nextId := s.nextId },
          ?_, ⟨_, rfl, rfl⟩, ?_⟩
  · simp [stop_recording, hslot, hst, hap, hget, hd]
  · intro r' hr' hid
    obtain ⟨r, hr, hEq⟩ := mem_storeUpdate hr'
    by_cases hidr : r.id = sess.id
    · rw [hEq, if_pos hidr]
    · have hEq' : r' = r := by rw [hEq, if_neg hidr]
      rw [hEq'] at hid
      exact absurd hid hidr

/-- Witness for C4 at a concrete state: stopping `recState` at time 10 with
a finalize timeout still returns the audio path and reaches Processing. -/
theorem c4_stop_succeeds_on_finalize_timeout_witness :
    ∃ s', stop_recording recState 10 false = .ok ("0/audio.wav", s') ∧
      (∃ cur, s'.slot = some cur ∧ cur.status = .Processing) ∧
      (∀ r ∈ s'.store, r.id = recSession.id → r.status = .Processing) :=
  c4_stop_succeeds_on_finalize_timeout recState 10 recSession recSession
    "0/audio.wav" rfl rfl rfl rfl (by decide)

/-- Counterexample to claim C6: start a session and let the microphone
disconnect within the same second (`terminated_at = created_at`).  The
recording terminates — the row is Failed with the disconnect message — yet
`duration` is left unset (`handle_mic_disconnect` stores a duration only
when `now - created_at > 0`), while the claim requires it to be set to
`max(0, terminated_at - created_at) = 0`. -/
theorem c6_counterexample :
    (execOps initEngine
        [.start 5 .MicrophoneOnly, .disconnect 5 "device removed"]).store.map
      (fun r => (r.status, r.duration, r.error_message)) =
    [(.Failed, none, some "Microphone disconnected: device removed")] := rfl

/-- Claim C6, amended: `stop_recording` sets the duration to
`terminated_at - created_at`, which (non-negativity being enforced by its
error path) equals `max(0, terminated_at - created_at)`; the disconnect and
shutdown handlers set the duration only when `terminated_at - created_at` is
strictly positive — in which case it equals `max(0, ...)` — and otherwise
leave the row's duration unchanged (unset). -/
theorem c6_amended_duration :
    (∀ (s : EngineState) (now : Int) (fin_ : Bool) (sess row : Session)
        (path : String) (s' : EngineState),
      s.slot = some sess → sess.status = .Recording →
      sess.audio_path = some path →
      storeGet s.store sess.id = some row →
      stop_recording s now fin_ = .ok (path, s') →
      (∀ r ∈ s'.store, r.id = sess.id →
        r.duration = some (now - row.created_at)) ∧
      now - row.created_at = max 0 (now - row.created_at)) ∧
    (∀ (s : EngineState) (now : Int) (msg : String) (sess row r : Session),
      s.slot = some sess → sess.status = .Recording →
      storeGet s.store sess.id = some row →
      r ∈ s.store → r.id = sess.id →
      (if 0 < now - row.created_at then
          { r with status := .Failed
                   error_message := some ("Microphone disconnected: " ++ msg)
                   duration := some (now - row.created_at) }
        else
          { r with status := .Failed
                   error_message := some ("Microphone disconnected: " ++ msg) })
        ∈ (handle_mic_disconnect s now msg).store ∧
      (0 < now - row.created_at →
        now - row.created_at = max 0 (now - row.created_at))) ∧
    (∀ (s : EngineState) (now : Int) (sess row r : Session),
      s.slot = some sess → sess.status = .Recording →
      storeGet s.store sess.id = some row →
      r ∈ s.store → r.id = sess.id →
      (if 0 < now - row.created_at then
          { r with status := .Interrupted
                   error_message := some "Session interrupted due to app shutdown"
                   duration := some (now - row.created_at) }
        else
          { r with status := .Interrupted
                   error_message := some "Session interrupted due to app shutdown" })
        ∈ (handle_app_shutdown s now).2.store ∧
      (0 < now - row.created_at →
        now - row.created_at = max 0 (now - row.created_at))) := by
  refine ⟨?_, ?_, ?_⟩
  · intro s now fin_ sess row path s' hslot hst hap hget hok
    simp only [stop_recording, hslot, hst, hap, hget] at hok
    split at hok
    · cases hok
    · simp only [Except.ok.injEq, Prod.mk.injEq] at hok
      obtain ⟨-, hs'⟩ := hok
      subst hs'
      constructor
      · intro r' hr' hid
        obtain ⟨r, hr, hEq⟩ := mem_storeUpdate hr'
        by_cases hidr : r.id = sess.id
        · rw [hEq, if_pos hidr]
        · have hEq' : r' = r := by rw [hEq, if_neg hidr]
          rw [hEq'] at hid
          exact absurd hid hidr
      · exact (max_eq_right (by omega)).symm
  · intro s now msg sess row r hslot hst hget hr hid
    by_cases hd : 0 < now - row.created_at
    · have hpd : partialDuration s.store sess.id now =
          some (now - row.created_at) := by
        simp [partialDuration, hget, hd]
      have hstore : (handle_mic_disconnect s now msg).store =
          storeUpdate s.store sess.id (fun a =>
            { a with status := .Failed
                     error_message := some ("Microphone disconnected: " ++ msg)
                     duration := some (now - row.created_at) }) := by
        simp [handle_mic_disconnect, hslot, hst, hpd]
      rw [if_pos hd, hstore]
      exact ⟨List.mem_map.mpr ⟨r, hr, by rw [if_pos hid]⟩,
        fun hdd => (max_eq_right (le_of_lt hdd)).symm⟩
    · have hpd : partialDuration s.store sess.id now = none := by
        simp [partialDuration, hget, hd]
      have hstore : (handle_mic_disconnect s now msg).store =
          storeUpdate s.store sess.id (fun a =>
            { a with status := .Failed
                     error_message :=
                       some ("Microphone disconnected: " ++ msg) }) := by
        simp [handle_mic_disconnect, hslot, hst, hpd]
      rw [if_neg hd, hstore]
      exact ⟨List.mem_map.mpr ⟨r, hr, by rw [if_pos hid]⟩,
        fun hdd => (max_eq_right (le_of_lt hdd)).symm⟩
  · intro s now sess row r hslot hst hget hr hid
    by_cases hd : 0 < now - row.created_at
    · have hpd : partialDuration s.store sess.id now =
          some (now - row.created_at) := by
        simp [partialDuration, hget, hd]
      have hstore : (handle_app_shutdown s now).2.store =
          storeUpdate s.store sess.id (fun a =>
            { a with status := .Interrupted
                     error_message :=
                       some "Session interrupted due to app shutdown"
                     duration := some (now - row.created_at) }) := by
        simp [handle_app_shutdown, hslot, hst, hpd]
      rw [if_pos hd, hstore]
      exact ⟨List.mem_map.mpr ⟨r, hr, by rw [if_pos hid]⟩,
        fun hdd => (max_eq_right (le_of_lt hdd)).symm⟩
    · have hpd : partialDuration s.store sess.id now = none := by
        simp [partialDuration, hget, hd]
      have hstore : (handle_app_shutdown s now).2.store =
          storeUpdate s.store sess.id (fun a =>
            { a with status := .Interrupted
                     error_message :=
                       some "Session interrupted due to app shutdown" }) := by
        simp [handle_app_shutdown, hslot, hst, hpd]
      rw [if_neg hd, hstore]
      exact ⟨List.mem_map.mpr ⟨r, hr, by rw [if_pos hid]⟩,
        fun hdd => (max_eq_right (le_of_lt hdd)).symm⟩

/-- Witness for the amended C6 at a concrete state: disconnecting
`recState` at time 10 stores the transformed row with duration `some 5`. -/
theorem c6_amended_duration_witness :
    (if 0 < (10 : Int) - recSession.created_at then
        { recSession with
          status := .Failed
          error_message := some ("Microphone disconnected: " ++ "gone")
          duration := some ((10 : Int) - recSession.created_at) }
      else
        { recSession with
          status := .Failed
          error_message := some ("Microphone disconnected: " ++ "gone") })
      ∈ (handle_mic_disconnect recState 10 "gone").store ∧
    (0 < (10 : Int) - recSession.created_at →
      (10 : Int) - recSession.created_at =
        max 0 ((10 : Int) - recSession.created_at)) :=
  c6_amended_duration.2.1 recState 10 "gone" recSession recSession recSession
    rfl rfl rfl (List.mem_singleton.mpr rfl) rfl

/-- Claim C7: after the startup check no row is Recording; every row that was
Recording is now Interrupted with exactly the recovery error message, all
its other fields untouched; and every other row is unchanged. -/
theorem c7_startup_sweep (rows : List Session) :
    (∀ r ∈ check_interrupted_sessions_sweep rows, ¬ r.status = .Recording) ∧
    (∀ i : Nat, ∀ h : i < rows.length,
      ((rows.get ⟨i, h⟩).status = .Recording →
        (check_interrupted_sessions_sweep rows).get
            ⟨i, by simpa [check_interrupted_sessions_sweep] using h⟩ =
          { rows.get ⟨i, h⟩ with
            status := .Interrupted
            error_message := some recoveredMsg }) ∧
      (¬ (rows.get ⟨i, h⟩).status = .Recording →
        (check_interrupted_sessions_sweep rows).get
            ⟨i, by simpa [check_interrupted_sessions_sweep] using h⟩ =
          rows.get ⟨i, h⟩)) := by
  constructor
  · intro r hr
    obtain ⟨r0, hr0, hEq⟩ := List.mem_map.mp hr
    rw [← hEq, sweepRow]
    by_cases hst : r0.status = .Recording
    · rw [if_pos hst]
      intro hcontra
      cases hcontra
    · rw [if_neg hst]
      exact hst
  · intro i h
    constructor
    · intro hst
      simp only [check_interrupted_sessions_sweep, List.get_map, sweepRow,
        if_pos hst]
    · intro hst
      simp only [check_interrupted_sessions_sweep, List.get_map, sweepRow,
        if_neg hst]

/-- Witness for C7 at a concrete table: one Recording row next to one
Completed row — the first becomes Interrupted with the recovery message, the
second stays untouched. -/
theorem c7_startup_sweep_witness :
    (∀ r ∈ check_interrupted_sessions_sweep
        [recSession, { recSession with id := 1, status := .Completed }],
      ¬ r.status = .Recording) ∧
    ((check_interrupted_sessions_sweep
        [recSession, { recSession with id := 1, status := .Completed }]).get
        ⟨0, by simp [check_interrupted_sessions_sweep]⟩ =
      { recSession with status := .Interrupted
                        error_message := some recoveredMsg }) := by
  have h := c7_startup_sweep
    [recSession, { recSession with id := 1, status := .Completed }]
  refine ⟨h.1, ?_⟩
  have h0 := (h.2 0 (by decide)).1 rfl
  exact h0

/-- Witness for C3 at concrete inputs: Completed → Processing is permitted,
and the unlisted pair Completed → Idle is rejected with the error. -/
theorem c3_transitions_exactly_listed_witness :
    transitionPermitted .Completed .Processing = true ∧
    validate_state_transition .Completed .Idle = .error "Invalid state transition" :=
  ⟨c3_transitions_exactly_listed.2.1,
   c3_transitions_exactly_listed.2.2 .Completed .Idle (by decide)⟩
